import Mathlib

/-
  Verification of the request execution pipeline of the qlover/front-work
  repository: the Executor plugin pipeline, the RetryPlugin policy, the
  RequestScheduler config merge, the RequestCommonPlugin (header / token /
  default-body handling) and the Logger utility.

  JavaScript objects that are used as string-keyed records are embedded as
  association lists (first key occurrence wins on lookup, as lookup on a
  JS object is unambiguous because keys are unique); object spread
  `\x7b...d, ...c\x7d` and property assignment are embedded by `jsSpread`
  and `setKey` below.
-/

set_option autoImplicit false

/-- JS property read `o[k]` on a string-keyed record embedded as an
association list: first entry with the key, if any. -/
def getKey {β : Type} (k : String) : List (String × β) → Option β
  | [] => none
  | (k', v) :: rest => if k' = k then some v else getKey k rest

/-- JS property write `o[k] = v`: overwrite the entry in place if the key
exists, otherwise append the new entry. -/
def setKey {β : Type} (k : String) (v : β) : List (String × β) → List (String × β)
  | [] => [(k, v)]
  | (k', v') :: rest => if k' = k then (k, v) :: rest else (k', v') :: setKey k v rest

/-- JS object spread of two records, later (second) record winning per key. -/
def jsSpread {β : Type} (d c : List (String × β)) : List (String × β) :=
  d.filter (fun kv => (getKey kv.1 c).isNone) ++ c

theorem getKey_setKey_self {β : Type} (k : String) (v : β) (m : List (String × β)) :
    getKey k (setKey k v m) = some v := by
  induction m with
  | nil => simp [setKey, getKey]
  | cons hd tl ih =>
    obtain ⟨k', v'⟩ := hd
    by_cases h : k' = k
    · simp [setKey, h, getKey]
    · simp [setKey, h, getKey, ih]

theorem getKey_setKey_other {β : Type} (k k' : String) (v : β) (m : List (String × β))
    (h : k' ≠ k) : getKey k' (setKey k v m) = getKey k' m := by
  have h2 : ¬ k = k' := fun hh => h hh.symm
  induction m with
  | nil => simp [setKey, getKey, h2]
  | cons hd tl ih =>
    obtain ⟨k0, v0⟩ := hd
    by_cases h0 : k0 = k
    · subst h0
      simp [setKey, getKey, h2]
    · simp [setKey, h0, getKey, ih]

theorem getKey_append {β : Type} (k : String) (l1 l2 : List (String × β)) :
    getKey k (l1 ++ l2) = (getKey k l1).or (getKey k l2) := by
  induction l1 with
  | nil => simp [getKey]
  | cons hd tl ih =>
    obtain ⟨k', v⟩ := hd
    by_cases h : k' = k <;> simp [getKey, h, ih]

theorem getKey_filter_of_none {β : Type} (k : String) (d c : List (String × β))
    (h : getKey k c = none) :
    getKey k (d.filter (fun kv => (getKey kv.1 c).isNone)) = getKey k d := by
  induction d with
  | nil => simp
  | cons hd tl ih =>
    obtain ⟨k', v⟩ := hd
    by_cases hk : k' = k
    · subst hk
      simp [List.filter, h, getKey]
    · by_cases hc : (getKey k' c).isNone <;> simp [List.filter, hc, getKey, hk, ih]

theorem getKey_filter_of_some {β : Type} (k : String) (d c : List (String × β)) (v : β)
    (h : getKey k c = some v) :
    getKey k (d.filter (fun kv => (getKey kv.1 c).isNone)) = none := by
  induction d with
  | nil => simp [getKey]
  | cons hd tl ih =>
    obtain ⟨k', v'⟩ := hd
    by_cases hk : k' = k
    · subst hk
      simp [List.filter, h, ih]
    · by_cases hc : (getKey k' c).isNone <;> simp [List.filter, hc, getKey, hk, ih]

/-- The spread of two records has call-site (second record) precedence per key. -/
theorem getKey_jsSpread {β : Type} (k : String) (d c : List (String × β)) :
    getKey k (jsSpread d c) = (getKey k c).or (getKey k d) := by
  unfold jsSpread
  rw [getKey_append]
  cases h : getKey k c with
  | none => simp [getKey_filter_of_none k d c h]
  | some v => simp [getKey_filter_of_some k d c v h]

/-- Events observed while running one execution through the pipeline, in
order: hook invocations, task (adapter) attempts and evaluations of the
retry predicate. -/
inductive PipeEvent where
  | beforeHook (name : String)
  | taskAttempt (idx : Nat)
  | successHook (name : String)
  | errorHook (name : String)
  | shouldRetryCall
deriving DecidableEq, Repr

/-- Modelled from the spec: the outcome a plugin's onError hook reports to
the Executor — not handled (pass to the next plugin), retry (re-run the
task), or replace-and-succeed with a substitute result. The Executor and
its plugin classes are not under src (only their tests and consumers are). -/
inductive ErrorAction (R : Type) where
  | notHandled
  | retryTask
  | handledWith (value : R)

/-- Modelled from the spec: a plugin is a named record of optional hooks;
onBefore may rewrite the parameters, onSuccess may rewrite the return
value, onError consumes the error and the plugin's per-context counter
state and reports an action, a new counter and any instrumentation events. -/
structure SpecPlugin (P R E : Type) where
  pluginName : String
  onBefore : P → P
  onSuccess : R → R
  onError : E → Nat → ErrorAction R × Nat × List PipeEvent

/-- Modelled from the spec: the Executor runs onBefore on each plugin in
registration order, each receiving the parameters left by the previous. -/
def runBeforeHooks {P R E : Type} : List (SpecPlugin P R E) → P → P × List PipeEvent
  | [], p => (p, [])
  | pl :: rest, p =>
    let p1 := pl.onBefore p
    let (p2, evs) := runBeforeHooks rest p1
    (p2, PipeEvent.beforeHook pl.pluginName :: evs)

/-- Modelled from the spec: after the task succeeds, onSuccess runs on each
plugin in registration order, each able to replace the return value. -/
def runSuccessHooks {P R E : Type} : List (SpecPlugin P R E) → R → R × List PipeEvent
  | [], r => (r, [])
  | pl :: rest, r =>
    let r1 := pl.onSuccess r
    let (r2, evs) := runSuccessHooks rest r1
    (r2, PipeEvent.successHook pl.pluginName :: evs)

/-- Modelled from the spec: on failure the error is offered to the plugins'
onError in registration order; the first plugin answering retry or
replace-and-succeed wins and later plugins are not consulted for this
failure occurrence. -/
def runErrorChain {P R E : Type} (e : E) :
    List (SpecPlugin P R E × Nat) → ErrorAction R × List (SpecPlugin P R E × Nat) × List PipeEvent
  | [] => (ErrorAction.notHandled, [], [])
  | (pl, s) :: rest =>
    match pl.onError e s with
    | (ErrorAction.notHandled, s', evs) =>
      let (act2, rest', evs2) := runErrorChain e rest
      (act2, (pl, s') :: rest', PipeEvent.errorHook pl.pluginName :: (evs ++ evs2))
    | (ErrorAction.retryTask, s', evs) =>
      (ErrorAction.retryTask, (pl, s') :: rest, PipeEvent.errorHook pl.pluginName :: evs)
    | (ErrorAction.handledWith r, s', evs) =>
      (ErrorAction.handledWith r, (pl, s') :: rest, PipeEvent.errorHook pl.pluginName :: evs)

/-- Modelled from the spec: the attempt loop of Executor.exec. It invokes
the task; on success it runs the onSuccess hooks, on failure it offers the
error to the onError chain and either propagates, completes with a
substitute, or re-invokes the task with the same parameters. The task is
indexed by the attempt number so that distinct attempts may observe
distinct failures; fuel bounds the recursion and is chosen large enough by
every caller (the retry budget is finite). -/
def taskPhase {P R E : Type} :
    Nat → List (SpecPlugin P R E × Nat) → (Nat → P → Except E R) → P → Nat →
      Option (Except E R) × List PipeEvent
  | 0, _, _, _, _ => (none, [])
  | fuel + 1, ps, taskSeq, p, attempt =>
    match taskSeq attempt p with
    | Except.ok r =>
      let (r2, evs) := runSuccessHooks (ps.map Prod.fst) r
      (some (Except.ok r2), PipeEvent.taskAttempt attempt :: evs)
    | Except.error e =>
      match runErrorChain e ps with
      | (ErrorAction.notHandled, _, evs) =>
        (some (Except.error e), PipeEvent.taskAttempt attempt :: evs)
      | (ErrorAction.handledWith r, _, evs) =>
        (some (Except.ok r), PipeEvent.taskAttempt attempt :: evs)
      | (ErrorAction.retryTask, ps2, evs) =>
        let (res, evs2) := taskPhase fuel ps2 taskSeq p (attempt + 1)
        (res, PipeEvent.taskAttempt attempt :: (evs ++ evs2))

/-- Modelled from the spec: Executor.exec — run the onBefore hooks once, in
order, then enter the attempt loop with every plugin's per-context counter
fresh at 0. -/
def exec {P R E : Type} (fuel : Nat) (plugins : List (SpecPlugin P R E))
    (taskSeq : Nat → P → Except E R) (p : P) : Option (Except E R) × List PipeEvent :=
  let (p2, evsB) := runBeforeHooks plugins p
  let (res, evs) := taskPhase fuel (plugins.map (fun pl => (pl, 0))) taskSeq p2 0
  (res, evsB ++ evs)

/-- Modelled from the spec: Executor.use appends a plugin to the ordered
sequence and rejects (ignores) a plugin whose declared name is already
present. -/
def useP {P R E : Type} (plugins : List (SpecPlugin P R E)) (pl : SpecPlugin P R E) :
    List (SpecPlugin P R E) :=
  if plugins.any (fun q => q.pluginName == pl.pluginName) then plugins
  else plugins ++ [pl]

/-- Modelled from the spec: the RetryPlugin's onError — exhausted counter
(counter at or above maxRetries) answers not handled without consulting the
predicate; otherwise the predicate is evaluated and a positive answer
increments the counter and requests a retry. The retryDelay only schedules
the retry in time and is not part of the value semantics. -/
def RetryPlugin {P R E : Type} (maxRetries : Nat) (shouldRetry : E → Bool) :
    SpecPlugin P R E where
  pluginName := "RetryPlugin"
  onBefore := id
  onSuccess := id
  onError := fun e counter =>
    if maxRetries ≤ counter then (ErrorAction.notHandled, counter, [])
    else if shouldRetry e then
      (ErrorAction.retryTask, counter + 1, [PipeEvent.shouldRetryCall])
    else (ErrorAction.notHandled, counter, [PipeEvent.shouldRetryCall])

/-- Number of task (adapter) attempts recorded in a trace. -/
def countTaskAttempts (evs : List PipeEvent) : Nat :=
  (evs.filter (fun ev => match ev with | PipeEvent.taskAttempt _ => true | _ => false)).length

/-- Number of retry-predicate evaluations recorded in a trace. -/
def countShouldRetryCalls (evs : List PipeEvent) : Nat :=
  (evs.filter (fun ev => match ev with | PipeEvent.shouldRetryCall => true | _ => false)).length

/-- Names of the onBefore hook invocations of a trace, in order. -/
def beforeNames (evs : List PipeEvent) : List String :=
  evs.filterMap (fun ev => match ev with | PipeEvent.beforeHook n => some n | _ => none)

/-- Names of the onSuccess hook invocations of a trace, in order. -/
def successNames (evs : List PipeEvent) : List String :=
  evs.filterMap (fun ev => match ev with | PipeEvent.successHook n => some n | _ => none)

/-- Names of the onError hook invocations of a trace, in order. -/
def errorNames (evs : List PipeEvent) : List String :=
  evs.filterMap (fun ev => match ev with | PipeEvent.errorHook n => some n | _ => none)

/-- Whether pat occurs as a contiguous run inside l. -/
def listIncludes (pat : List Char) : List Char → Bool
  | [] => pat.isEmpty
  | c :: rest => pat.isPrefixOf (c :: rest) || listIncludes pat rest

/-- JS String.prototype.includes: the pattern occurs as a contiguous
substring, checked on the underlying character lists. -/
def strIncludes (s pat : String) : Bool :=
  listIncludes pat.data s.data

/-- The response record returned by the mock adapter of the scheduler test
suite (src/unnamed/part_001): status, statusText, headers, echoed data and
the config the adapter actually sent. -/
structure RequestAdapterResponse where
  status : Nat
  statusText : String
  headers : List (String × String)
  data : Option String
  config : List (String × String)
deriving DecidableEq, Repr

/-- MockRequestAdapter.request from src/unnamed/part_001: spread the call
config over the adapter's stored config, fail when the url contains
'/test/fail', otherwise answer 200 echoing the sent data and config. A
missing url is a TypeError in JS (undefined.includes). The awaited
setTimeout only delays in time and is not part of the value semantics. -/
def mockRequest (adapterConfig : List (String × String)) (config : List (String × String)) :
    Except String RequestAdapterResponse :=
  let sendConfig := jsSpread adapterConfig config
  match getKey "url" sendConfig with
  | none => Except.error "TypeError"
  | some url =>
    if strIncludes url "/test/fail" then Except.error "Request failed"
    else
      Except.ok
        { status := 200
          statusText := "ok"
          headers := []
          data := getKey "data" sendConfig
          config := sendConfig }

/-- Modelled from the spec: RequestScheduler.request — the scheduler class
is not under src (only its test suite is). It shallow-merges the per-call
config over the adapter's stored default config with call-site precedence,
builds a fresh context and delegates to Executor.exec with the adapter's
request as the task. -/
def schedulerRequest (fuel : Nat)
    (plugins : List (SpecPlugin (List (String × String)) RequestAdapterResponse String))
    (adapterConfig callConfig : List (String × String)) :
    Option (Except String RequestAdapterResponse) × List PipeEvent :=
  exec fuel plugins (fun _ p => mockRequest adapterConfig p)
    (jsSpread adapterConfig callConfig)

/-- A JSON-like request body value: a string, or a string-keyed record of
nested values. -/
inductive JsData where
  | str (s : String)
  | obj (fields : List (String × JsData))

/-- JS truthiness of an optional string: undefined and the empty string are
falsy. -/
def strTruthy : Option String → Bool
  | none => false
  | some s => s != ""

/-- JS template-literal interpolation of an optional string: undefined
renders as the text "undefined". -/
def jsTemplateStr : Option String → String
  | none => "undefined"
  | some s => s

/-- JS truthiness of a body value: the empty string is falsy, every object
is truthy. -/
def jsDataTruthy : JsData → Bool
  | JsData.str s => s != ""
  | JsData.obj _ => true

/-- lodash get over an optional body for a plain (non-path) key: undefined
on a missing body or a string body, field lookup on an object body. -/
def lodashGet (d : Option JsData) (key : String) : Option JsData :=
  match d with
  | none => none
  | some (JsData.str _) => none
  | some (JsData.obj fields) => getKey key fields

/-- lodash set over an optional body for a plain (non-path) key: a missing
body and a string (non-object) body are left unchanged, an object body has
the field written. -/
def lodashSet (d : Option JsData) (key : String) (v : JsData) : Option JsData :=
  match d with
  | none => none
  | some (JsData.str s) => some (JsData.str s)
  | some (JsData.obj fields) => some (JsData.obj (setKey key v fields))

/-- One step of the defaultRequestData merge of RequestCommonPlugin.onBefore
(src/unnamed/part_004): fill the key from the default only when the current
value is undefined. -/
def fillDefault (key : String) (v : JsData) (d : Option JsData) : Option JsData :=
  match lodashGet d key with
  | none => lodashSet d key v
  | some _ => d

/-- RequestCommonPluginConfig from src/unnamed/part_004. The source field
tokenPrefixVal is named tokenPrefix there. -/
structure RequestCommonPluginConfig where
  token : Option String := none
  tokenPrefixVal : Option String := none
  authKey : Option String := none
  defaultHeaders : List (String × String) := []
  requiredToken : Bool := false
  defaultRequestData : Option (List (String × JsData)) := none
  requestDataSerializer : Option (JsData → JsData) := none

/-- The RequestCommonPlugin constructor (src/unnamed/part_004): throws
"Token is required!" when requiredToken is set and the token is falsy
(absent or empty), otherwise stores the config. -/
def newRequestCommonPlugin (config : RequestCommonPluginConfig) :
    Except String RequestCommonPluginConfig :=
  if config.requiredToken && !(strTruthy config.token) then
    Except.error "Token is required!"
  else Except.ok config

/-- The request parameters as far as RequestCommonPlugin.onBefore touches
them: headers record, declared responseType and body. An absent headers
record is embedded as the empty record (the source only ever spreads and
writes into it, for which the two agree). -/
structure RequestAdapterConfig where
  headers : List (String × String) := []
  responseType : Option String := none
  data : Option JsData := none

/-- RequestCommonPlugin.onBefore from src/unnamed/part_004: spread default
headers under call headers, force Content-Type for the json responseType,
write the auth header when the computed auth value is truthy (the template
literal renders an undefined token as "undefined"), fill missing body keys
from defaultRequestData, and finally serialize a truthy body when a
serializer is configured. -/
def RequestCommonPlugin.onBefore (cfg : RequestCommonPluginConfig)
    (parameters : RequestAdapterConfig) : RequestAdapterConfig :=
  let headers1 := jsSpread cfg.defaultHeaders parameters.headers
  let headers2 :=
    if parameters.responseType = some "json" then
      setKey "Content-Type" "application/json" headers1
    else headers1
  let authKeyV := match cfg.authKey with
    | none => "Authorization"
    | some k => k
  let authValue : Option String :=
    if strTruthy cfg.tokenPrefixVal then
      some (jsTemplateStr cfg.tokenPrefixVal ++ " " ++ jsTemplateStr cfg.token)
    else cfg.token
  let headers3 :=
    if authKeyV != "" && strTruthy authValue then
      setKey authKeyV (jsTemplateStr authValue) headers2
    else headers2
  let data1 := match cfg.defaultRequestData with
    | none => parameters.data
    | some defaults => defaults.foldl (fun d kv => fillDefault kv.1 kv.2 d) parameters.data
  let data2 := match cfg.requestDataSerializer, data1 with
    | some f, some d => if jsDataTruthy d then some (f d) else some d
    | _, d => d
  { headers := headers3, responseType := parameters.responseType, data := data2 }

/-- Logger construction state from src/unnamed/part_000: the four boolean
options isCI, dryRun, debug, silent, stored as isCI / isDryRun / isDebug /
isSilent (each defaulting to false). -/
structure LoggerOptions where
  isCI : Bool := false
  isDryRun : Bool := false
  isDebug : Bool := false
  isSilent : Bool := false

/-- Logger.print (src/unnamed/part_000): every logging method funnels here;
console output happens only when the logger is not silent. The output of a
run is the list of console.log calls, each call being its argument list
(arguments are modelled as strings, which is what the claims exercise). -/
def Logger.print (o : LoggerOptions) (_level : String) (args : List String) :
    List (List String) :=
  if o.isSilent then [] else [args]

/-- Logger.prefix from src/unnamed/part_000 (renamed, appends one space). -/
def prefixOf (value : String) : String := value ++ " "

/-- Logger.log (src/unnamed/part_000). -/
def Logger.log (o : LoggerOptions) (args : List String) : List (List String) :=
  Logger.print o "LOG" args

/-- Logger.info (src/unnamed/part_000). -/
def Logger.info (o : LoggerOptions) (args : List String) : List (List String) :=
  Logger.print o "INFO" (prefixOf "INFO" :: args)

/-- Logger.warn (src/unnamed/part_000). -/
def Logger.warn (o : LoggerOptions) (args : List String) : List (List String) :=
  Logger.print o "WARN" (prefixOf "WARN" :: args)

/-- Logger.error (src/unnamed/part_000). -/
def Logger.error (o : LoggerOptions) (args : List String) : List (List String) :=
  Logger.print o "ERROR" (prefixOf "ERROR" :: args)

/-- Logger.debug (src/unnamed/part_000): gated on the debug option; the
first argument is stringified (String(undefined) is "undefined" when there
are no arguments; string arguments stringify to themselves). -/
def Logger.debug (o : LoggerOptions) (args : List String) : List (List String) :=
  if o.isDebug then
    Logger.print o "DEBUG"
      (prefixOf "DEBUG" ::
        (match args with
         | [] => ["undefined"]
         | a :: rest => a :: rest))
  else []

/-- Logger.verbose (src/unnamed/part_000): gated on the debug option. -/
def Logger.verbose (o : LoggerOptions) (args : List String) : List (List String) :=
  if o.isDebug then Logger.print o "DEBUG" args else []

/-- Logger.obtrusive (src/unnamed/part_000): a blank console.log before and
after the message, each emitted only outside CI. -/
def Logger.obtrusive (o : LoggerOptions) (args : List String) : List (List String) :=
  (if !o.isCI then Logger.log o [] else []) ++
    Logger.log o args ++
    (if !o.isCI then Logger.log o [] else [])

lemma option_or_or_self {α : Type} (x y : Option α) : (x.or y).or y = x.or y := by
  cases x <;> cases y <;> rfl

/-- Claim C4: constructing a RequestCommonPlugin with requiredToken and no
token throws at construction time; with a (truthy) token present, or with
requiredToken false, construction succeeds, whatever the other options. -/
theorem c4_required_token_construction :
    ∀ cfg : RequestCommonPluginConfig,
      (cfg.requiredToken = true → cfg.token = none →
        newRequestCommonPlugin cfg = Except.error "Token is required!") ∧
      ((strTruthy cfg.token = true ∨ cfg.requiredToken = false) →
        newRequestCommonPlugin cfg = Except.ok cfg) := by
  intro cfg
  constructor
  · intro h1 h2
    simp [newRequestCommonPlugin, h1, h2, strTruthy]
  · intro h
    rcases h with h | h
    · simp [newRequestCommonPlugin, h]
    · simp [newRequestCommonPlugin, h]

theorem c4_witness :
    newRequestCommonPlugin { requiredToken := true } = Except.error "Token is required!" ∧
    newRequestCommonPlugin { token := some "t" } = Except.ok { token := some "t" } := by
  refine ⟨(c4_required_token_construction { requiredToken := true }).1 rfl rfl, ?_⟩
  exact (c4_required_token_construction { token := some "t" }).2 (Or.inl (by decide))

/-- Claim C5 (code evaluation at the failing input): with a tokenPrefix
configured and no token, onBefore writes the authorization header with the
value "Bearer undefined" — the template literal renders the missing token —
although the claim and the spec say no authorization header is written when
no token is configured. With neither token nor prefix no header is written. -/
theorem c5_auth_header_token_absent :
    (RequestCommonPlugin.onBefore { tokenPrefixVal := some "Bearer" }
        { }).headers = [("Authorization", "Bearer undefined")] ∧
    (RequestCommonPlugin.onBefore { } { }).headers = [] := by
  constructor <;> rfl

/-- Claim C10 counterexample: with authKey configured as "Content-Type" and
a token configured, a json call's finalized headers carry the auth value,
not "application/json" — the token-injection step runs after the
Content-Type force and overwrites that key. -/
theorem c10_counterexample :
    getKey "Content-Type"
        ((RequestCommonPlugin.onBefore
            { token := some "tok", authKey := some "Content-Type" }
            { responseType := some "json" }).headers) = some "tok" ∧
    ("tok" : String) ≠ "application/json" := by
  constructor
  · rfl
  · decide

/-- Claim C10 (amended): for every call declaring responseType json,
onBefore writes Content-Type: application/json after the default-header
merge, overriding any caller-supplied Content-Type — provided the effective
auth header key (authKey, default "Authorization") is not itself
"Content-Type", in which case the later token-injection step could
overwrite it. -/
theorem c10_content_type_json :
    ∀ (cfg : RequestCommonPluginConfig) (params : RequestAdapterConfig),
      params.responseType = some "json" →
      (match cfg.authKey with | none => "Authorization" | some k => k) ≠ "Content-Type" →
      getKey "Content-Type" ((RequestCommonPlugin.onBefore cfg params).headers)
        = some "application/json" := by
  intro cfg params h1 h2
  unfold RequestCommonPlugin.onBefore
  simp only [h1, if_pos rfl]
  set aK := (match cfg.authKey with | none => "Authorization" | some k => k) with haK
  set av : Option String :=
    (if strTruthy cfg.tokenPrefixVal then
      some (jsTemplateStr cfg.tokenPrefixVal ++ " " ++ jsTemplateStr cfg.token)
    else cfg.token) with hav
  by_cases hc : (aK != "" && strTruthy av) = true
  · simp only [hc, if_true]
    rw [getKey_setKey_other _ _ _ _ (fun hh => h2 hh.symm)]
    exact getKey_setKey_self _ _ _
  · simp only [hc, if_false]
    exact getKey_setKey_self _ _ _

theorem c10_witness :
    getKey "Content-Type"
        ((RequestCommonPlugin.onBefore { token := some "tok" }
            { responseType := some "json",
              headers := [("Content-Type", "text/plain")] }).headers)
      = some "application/json" :=
  c10_content_type_json { token := some "tok" }
    { responseType := some "json", headers := [("Content-Type", "text/plain")] }
    rfl (by decide)

lemma fillDefault_fold_obj (defaults : List (String × JsData)) :
    ∀ m : List (String × JsData),
      ∃ m2, defaults.foldl (fun d kv => fillDefault kv.1 kv.2 d) (some (JsData.obj m))
          = some (JsData.obj m2) ∧
        ∀ k, getKey k m2 = (getKey k m).or (getKey k defaults) := by
  induction defaults with
  | nil =>
    intro m
    exact ⟨m, rfl, fun k => by cases h : getKey k m <;> simp [getKey, h]⟩
  | cons hd rest ih =>
    intro m
    obtain ⟨k0, v0⟩ := hd
    cases h0 : getKey k0 m with
    | none =>
      obtain ⟨m2, hfold, hget⟩ := ih (setKey k0 v0 m)
      refine ⟨m2, ?_, ?_⟩
      · simpa [fillDefault, lodashGet, lodashSet, h0] using hfold
      · intro k
        rw [hget k]
        by_cases hk : k = k0
        · subst hk
          rw [getKey_setKey_self, h0]
          simp [getKey]
        · rw [getKey_setKey_other _ _ _ _ hk]
          have : getKey k ((k0, v0) :: rest) = getKey k rest := by
            simp only [getKey]
            rw [if_neg (fun hh : k0 = k => hk hh.symm)]
          rw [this]
    | some w =>
      obtain ⟨m2, hfold, hget⟩ := ih m
      refine ⟨m2, ?_, ?_⟩
      · simpa [fillDefault, lodashGet, h0] using hfold
      · intro k
        rw [hget k]
        by_cases hk : k = k0
        · subst hk
          rw [h0]
          simp [getKey]
        · have : getKey k ((k0, v0) :: rest) = getKey k rest := by
            simp only [getKey]
            rw [if_neg (fun hh : k0 = k => hk hh.symm)]
          rw [this]

/-- Claim C7: with a defaultRequestData mapping configured (and no
serializer, which would transform the body afterwards), onBefore merges the
defaults under an object call body: every key defined in the caller's body
keeps the caller's value, keys undefined in the caller's body are filled
from the defaults. -/
theorem c7_default_request_data :
    ∀ (cfg : RequestCommonPluginConfig) (params : RequestAdapterConfig)
      (m defaults : List (String × JsData)),
      cfg.defaultRequestData = some defaults →
      cfg.requestDataSerializer = none →
      params.data = some (JsData.obj m) →
      ∃ m2, (RequestCommonPlugin.onBefore cfg params).data = some (JsData.obj m2) ∧
        ∀ k, getKey k m2 = (getKey k m).or (getKey k defaults) := by
  intro cfg params m defaults h1 h2 h3
  obtain ⟨m2, hfold, hget⟩ := fillDefault_fold_obj defaults m
  refine ⟨m2, ?_, hget⟩
  unfold RequestCommonPlugin.onBefore
  simp only [h1, h2, h3, hfold]

theorem c7_witness :
    (RequestCommonPlugin.onBefore
        { defaultRequestData := some [("a", JsData.str "defA"), ("b", JsData.str "defB")] }
        { data := some (JsData.obj [("a", JsData.str "mine")]) }).data
      = some (JsData.obj [("a", JsData.str "mine"), ("b", JsData.str "defB")]) := by
  obtain ⟨m2, hdata, hget⟩ :=
    c7_default_request_data
      { defaultRequestData := some [("a", JsData.str "defA"), ("b", JsData.str "defB")] }
      { data := some (JsData.obj [("a", JsData.str "mine")]) }
      [("a", JsData.str "mine")] [("a", JsData.str "defA"), ("b", JsData.str "defB")]
      rfl rfl rfl
  have hcalc :
      (RequestCommonPlugin.onBefore
          { defaultRequestData := some [("a", JsData.str "defA"), ("b", JsData.str "defB")] }
          { data := some (JsData.obj [("a", JsData.str "mine")]) }).data
        = some (JsData.obj [("a", JsData.str "mine"), ("b", JsData.str "defB")]) := rfl
  exact hcalc

/-- Claim C9: with silent set no logging method produces output; debug and
verbose produce output only when the debug option is set; and (when not
silent) obtrusive emits a blank console.log line before and after its
message exactly when not in CI. -/
theorem c9_logger_flags :
    ∀ (o : LoggerOptions) (args : List String),
      (o.isSilent = true →
        Logger.log o args = [] ∧ Logger.info o args = [] ∧ Logger.warn o args = [] ∧
        Logger.error o args = [] ∧ Logger.debug o args = [] ∧ Logger.verbose o args = [] ∧
        Logger.obtrusive o args = []) ∧
      (o.isDebug = false → Logger.debug o args = [] ∧ Logger.verbose o args = []) ∧
      (o.isSilent = false →
        Logger.obtrusive o args = if o.isCI then [args] else [[], args, []]) := by
  intro o args
  obtain ⟨ci, dr, dbg, sil⟩ := o
  cases ci <;> cases dbg <;> cases sil <;>
    simp [Logger.log, Logger.info, Logger.warn, Logger.error, Logger.debug,
      Logger.verbose, Logger.obtrusive, Logger.print]

theorem c9_witness :
    Logger.obtrusive ⟨false, false, false, false⟩ ["hello"] = [[], ["hello"], []] ∧
    Logger.debug ⟨false, false, false, true⟩ ["x"] = [] ∧
    Logger.verbose ⟨true, false, false, false⟩ ["y"] = [] := by
  have h1 := c9_logger_flags ⟨false, false, false, false⟩ ["hello"]
  have h2 := c9_logger_flags ⟨false, false, false, true⟩ ["x"]
  have h3 := c9_logger_flags ⟨true, false, false, false⟩ ["y"]
  exact ⟨by simpa using h1.2.2 rfl, (h2.1 rfl).2.2.2.2.1, (h3.2.1 rfl).2⟩

lemma nodup_foldl_useP {P R E : Type} (pls : List (SpecPlugin P R E)) :
    ∀ acc : List (SpecPlugin P R E),
      (acc.map SpecPlugin.pluginName).Nodup →
      ((pls.foldl useP acc).map SpecPlugin.pluginName).Nodup := by
  induction pls with
  | nil => intro acc h; simpa using h
  | cons pl rest ih =>
    intro acc h
    simp only [List.foldl_cons]
    apply ih
    unfold useP
    by_cases hc : acc.any (fun q => q.pluginName == pl.pluginName) = true
    · simp [hc, h]
    · have hnotin : pl.pluginName ∉ acc.map SpecPlugin.pluginName := by
        intro hmem
        rw [List.mem_map] at hmem
        obtain ⟨q, hq, hqe⟩ := hmem
        apply hc
        rw [List.any_eq_true]
        exact ⟨q, hq, by simp [hqe]⟩
      simp [hc, List.nodup_append, h, hnotin]

/-- Claim C8: through any sequence of use(plugin) calls starting from the
empty Executor, the declared names of the active plugins stay pairwise
distinct — in particular no name, such as "RetryPlugin", is ever active
twice (the modelled choice is that a duplicate registration is ignored). -/
theorem c8_unique_plugin_names :
    ∀ (P R E : Type) (pls : List (SpecPlugin P R E)),
      ((pls.foldl useP []).map SpecPlugin.pluginName).Nodup ∧
      ∀ n : String, ((pls.foldl useP []).map SpecPlugin.pluginName).count n ≤ 1 := by
  intro P R E pls
  have h := nodup_foldl_useP pls [] (by simp)
  exact ⟨h, fun n => List.nodup_iff_count_le_one.mp h n⟩


lemma runBeforeHooks_trace {P R E : Type} (plugins : List (SpecPlugin P R E)) :
    ∀ p, (runBeforeHooks plugins p).2
      = (plugins.map SpecPlugin.pluginName).map PipeEvent.beforeHook := by
  induction plugins with
  | nil => intro p; rfl
  | cons pl rest ih =>
    intro p
    rcases hr : runBeforeHooks rest (pl.onBefore p) with ⟨p2, evs⟩
    have h2 := ih (pl.onBefore p)
    rw [hr] at h2
    simp [runBeforeHooks, hr, h2]

lemma runSuccessHooks_trace {P R E : Type} (plugins : List (SpecPlugin P R E)) :
    ∀ r, (runSuccessHooks plugins r).2
      = (plugins.map SpecPlugin.pluginName).map PipeEvent.successHook := by
  induction plugins with
  | nil => intro r; rfl
  | cons pl rest ih =>
    intro r
    rcases hr : runSuccessHooks rest (pl.onSuccess r) with ⟨r2, evs⟩
    have h2 := ih (pl.onSuccess r)
    rw [hr] at h2
    simp [runSuccessHooks, hr, h2]


lemma runErrorChain_pure {P R E : Type} (e : E) :
    ∀ ps : List (SpecPlugin P R E × Nat),
      (∀ pq ∈ ps, ∀ s : Nat, ∃ s', pq.1.onError e s = (ErrorAction.notHandled, s', [])) →
      (runErrorChain e ps).1 = ErrorAction.notHandled ∧
      (runErrorChain e ps).2.2
        = (ps.map (fun pq => pq.1.pluginName)).map PipeEvent.errorHook := by
  intro ps
  induction ps with
  | nil => intro h; exact ⟨rfl, rfl⟩
  | cons pq rest ih =>
    intro h
    obtain ⟨pl, s⟩ := pq
    obtain ⟨s', hs⟩ := h (pl, s) (List.mem_cons_self _ _) s
    have hs2 : pl.onError e s = (ErrorAction.notHandled, s', []) := hs
    rcases hrec : runErrorChain e rest with ⟨act2, rest2, evs2⟩
    have hrest := ih (fun q hq s0 => h q (List.mem_cons_of_mem _ hq) s0)
    rw [hrec] at hrest
    have hact2 : act2 = ErrorAction.notHandled := hrest.1
    have hevs2 : evs2 = (rest.map (fun pq => pq.1.pluginName)).map PipeEvent.errorHook :=
      hrest.2
    subst hact2
    subst hevs2
    constructor
    · simp [runErrorChain, hs2, hrec]
    · simp [runErrorChain, hs2, hrec, List.map_map]

@[simp] lemma beforeNames_append (l1 l2 : List PipeEvent) :
    beforeNames (l1 ++ l2) = beforeNames l1 ++ beforeNames l2 := by
  simp [beforeNames]

@[simp] lemma successNames_append (l1 l2 : List PipeEvent) :
    successNames (l1 ++ l2) = successNames l1 ++ successNames l2 := by
  simp [successNames]

@[simp] lemma errorNames_append (l1 l2 : List PipeEvent) :
    errorNames (l1 ++ l2) = errorNames l1 ++ errorNames l2 := by
  simp [errorNames]

@[simp] lemma beforeNames_cons_task (i : Nat) (l : List PipeEvent) :
    beforeNames (PipeEvent.taskAttempt i :: l) = beforeNames l := by
  simp [beforeNames]

@[simp] lemma successNames_cons_task (i : Nat) (l : List PipeEvent) :
    successNames (PipeEvent.taskAttempt i :: l) = successNames l := by
  simp [successNames]

@[simp] lemma errorNames_cons_task (i : Nat) (l : List PipeEvent) :
    errorNames (PipeEvent.taskAttempt i :: l) = errorNames l := by
  simp [errorNames]

@[simp] lemma beforeNames_map_beforeHook {α : Type} (f : α → String) (l : List α) :
    beforeNames (l.map (PipeEvent.beforeHook ∘ f)) = l.map f := by
  induction l with
  | nil => rfl
  | cons a t ih =>
    have h1 : beforeNames (List.map (PipeEvent.beforeHook ∘ f) (a :: t))
        = f a :: beforeNames (List.map (PipeEvent.beforeHook ∘ f) t) := rfl
    rw [h1, ih]
    rfl

@[simp] lemma beforeNames_map_successHook {α : Type} (f : α → String) (l : List α) :
    beforeNames (l.map (PipeEvent.successHook ∘ f)) = [] := by
  induction l with
  | nil => rfl
  | cons a t ih =>
    have h1 : beforeNames (List.map (PipeEvent.successHook ∘ f) (a :: t))
        = beforeNames (List.map (PipeEvent.successHook ∘ f) t) := rfl
    rw [h1, ih]

@[simp] lemma beforeNames_map_errorHook {α : Type} (f : α → String) (l : List α) :
    beforeNames (l.map (PipeEvent.errorHook ∘ f)) = [] := by
  induction l with
  | nil => rfl
  | cons a t ih =>
    have h1 : beforeNames (List.map (PipeEvent.errorHook ∘ f) (a :: t))
        = beforeNames (List.map (PipeEvent.errorHook ∘ f) t) := rfl
    rw [h1, ih]

@[simp] lemma successNames_map_beforeHook {α : Type} (f : α → String) (l : List α) :
    successNames (l.map (PipeEvent.beforeHook ∘ f)) = [] := by
  induction l with
  | nil => rfl
  | cons a t ih =>
    have h1 : successNames (List.map (PipeEvent.beforeHook ∘ f) (a :: t))
        = successNames (List.map (PipeEvent.beforeHook ∘ f) t) := rfl
    rw [h1, ih]

@[simp] lemma successNames_map_successHook {α : Type} (f : α → String) (l : List α) :
    successNames (l.map (PipeEvent.successHook ∘ f)) = l.map f := by
  induction l with
  | nil => rfl
  | cons a t ih =>
    have h1 : successNames (List.map (PipeEvent.successHook ∘ f) (a :: t))
        = f a :: successNames (List.map (PipeEvent.successHook ∘ f) t) := rfl
    rw [h1, ih]
    rfl

@[simp] lemma errorNames_map_beforeHook {α : Type} (f : α → String) (l : List α) :
    errorNames (l.map (PipeEvent.beforeHook ∘ f)) = [] := by
  induction l with
  | nil => rfl
  | cons a t ih =>
    have h1 : errorNames (List.map (PipeEvent.beforeHook ∘ f) (a :: t))
        = errorNames (List.map (PipeEvent.beforeHook ∘ f) t) := rfl
    rw [h1, ih]

@[simp] lemma errorNames_map_errorHook {α : Type} (f : α → String) (l : List α) :
    errorNames (l.map (PipeEvent.errorHook ∘ f)) = l.map f := by
  induction l with
  | nil => rfl
  | cons a t ih =>
    have h1 : errorNames (List.map (PipeEvent.errorHook ∘ f) (a :: t))
        = f a :: errorNames (List.map (PipeEvent.errorHook ∘ f) t) := rfl
    rw [h1, ih]
    rfl

/-- Claim C2: for any registration order, one execution fires the onBefore
hooks exactly in that order, the onSuccess hooks exactly in that order, and
the onError hooks exactly in that same (not reversed) order, one after the
other along the single linear event trace. Stated for observer plugins
whose onError leaves the error unhandled, so that the whole chain runs. -/
theorem c2_hook_order :
    ∀ (P R E : Type) (plugins : List (SpecPlugin P R E)),
      (∀ pl ∈ plugins, ∀ (e : E) (s : Nat),
        ∃ s', pl.onError e s = (ErrorAction.notHandled, s', [])) →
      ∀ (p : P) (r : R) (e : E),
        beforeNames (exec 1 plugins (fun _ _ => Except.ok r) p).2
            = plugins.map SpecPlugin.pluginName ∧
        successNames (exec 1 plugins (fun _ _ => Except.ok r) p).2
            = plugins.map SpecPlugin.pluginName ∧
        beforeNames (exec 1 plugins (fun _ _ => Except.error e) p).2
            = plugins.map SpecPlugin.pluginName ∧
        errorNames (exec 1 plugins (fun _ _ => Except.error e) p).2
            = plugins.map SpecPlugin.pluginName := by
  intro P R E plugins h p r e
  rcases hb : runBeforeHooks plugins p with ⟨p2, evsB⟩
  have hbt := runBeforeHooks_trace plugins p
  rw [hb] at hbt
  have hps : ∀ l : List (SpecPlugin P R E), (l.map (fun pl => (pl, (0 : Nat)))).map Prod.fst = l := by
    intro l
    induction l with
    | nil => rfl
    | cons a t ih =>
      simp only [List.map_cons]
      rw [ih]
  rcases hsucc : runSuccessHooks plugins r with ⟨r2, evsS⟩
  have hst := runSuccessHooks_trace plugins r
  rw [hsucc] at hst
  have hh : ∀ pq ∈ plugins.map (fun pl => (pl, (0 : Nat))), ∀ s : Nat,
      ∃ s', pq.1.onError e s = (ErrorAction.notHandled, s', []) := by
    intro pq hq s
    rw [List.mem_map] at hq
    obtain ⟨pl, hpl, hpq⟩ := hq
    subst hpq
    exact h pl hpl e s
  rcases herr : runErrorChain e (plugins.map (fun pl => (pl, (0 : Nat)))) with ⟨act, ps', evsE⟩
  have hchain := runErrorChain_pure e (plugins.map (fun pl => (pl, (0 : Nat)))) hh
  rw [herr] at hchain
  have hact : act = ErrorAction.notHandled := hchain.1
  have hevsE : evsE = (((plugins.map (fun pl => (pl, (0 : Nat)))).map
      (fun pq => pq.1.pluginName)).map PipeEvent.errorHook) := hchain.2
  subst hact
  have hnames : ∀ l : List (SpecPlugin P R E),
      (l.map (fun pl => (pl, (0 : Nat)))).map (fun pq => pq.1.pluginName)
        = l.map SpecPlugin.pluginName := by
    intro l
    induction l with
    | nil => rfl
    | cons a t ih =>
      simp only [List.map_cons]
      rw [ih]
  rw [hnames plugins] at hevsE
  subst hevsE
  refine ⟨?_, ?_, ?_, ?_⟩
  · simp [exec, hb, taskPhase, hps plugins, hsucc, hbt, hst]
  · simp [exec, hb, taskPhase, hps plugins, hsucc, hbt, hst]
  · simp [exec, hb, taskPhase, herr, hbt]
  · simp [exec, hb, taskPhase, herr, hbt]

/-- An instrumentation plugin: no-op hooks and an onError that reports not
handled. -/
def obsPlugin (n : String) : SpecPlugin Nat Nat Nat where
  pluginName := n
  onBefore := id
  onSuccess := id
  onError := fun _ s => (ErrorAction.notHandled, s, [])

theorem c2_witness :
    beforeNames (exec 1 [obsPlugin "A", obsPlugin "B"]
        (fun _ _ => Except.ok (0 : Nat)) (0 : Nat)).2 = ["A", "B"] ∧
    errorNames (exec 1 [obsPlugin "A", obsPlugin "B"]
        (fun _ _ => Except.error (0 : Nat)) (0 : Nat)).2 = ["A", "B"] := by
  have h := c2_hook_order Nat Nat Nat [obsPlugin "A", obsPlugin "B"]
    (by
      intro pl hpl e s
      rcases List.mem_cons.mp hpl with h1 | h1
      · subst h1; exact ⟨s, rfl⟩
      · rcases List.mem_cons.mp h1 with h2 | h2
        · subst h2; exact ⟨s, rfl⟩
        · cases h2) 0 0 0
  exact ⟨h.1, h.2.2.2⟩


lemma taskPhase_error_notHandled {P R E : Type} (fuel : Nat)
    (ps ps2 : List (SpecPlugin P R E × Nat)) (taskSeq : Nat → P → Except E R) (p : P)
    (attempt : Nat) (e : E) (evs : List PipeEvent)
    (htask : taskSeq attempt p = Except.error e)
    (hchain : runErrorChain e ps = (ErrorAction.notHandled, ps2, evs)) :
    taskPhase (fuel + 1) ps taskSeq p attempt
      = (some (Except.error e), PipeEvent.taskAttempt attempt :: evs) := by
  simp [taskPhase, htask, hchain]

lemma taskPhase_error_retry {P R E : Type} (fuel : Nat)
    (ps ps2 : List (SpecPlugin P R E × Nat)) (taskSeq : Nat → P → Except E R) (p : P)
    (attempt : Nat) (e : E) (evs : List PipeEvent)
    (htask : taskSeq attempt p = Except.error e)
    (hchain : runErrorChain e ps = (ErrorAction.retryTask, ps2, evs)) :
    taskPhase (fuel + 1) ps taskSeq p attempt
      = ((taskPhase fuel ps2 taskSeq p (attempt + 1)).1,
         PipeEvent.taskAttempt attempt
           :: (evs ++ (taskPhase fuel ps2 taskSeq p (attempt + 1)).2)) := by
  rcases h : taskPhase fuel ps2 taskSeq p (attempt + 1) with ⟨res, evs2⟩
  simp [taskPhase, htask, hchain, h]

lemma retry_loop {P R E : Type} (maxR : Nat) (errSeq : Nat → E) (p : P) :
    ∀ k : Nat, ∀ c : Nat, c + k = maxR →
      (taskPhase (k + 1) [(RetryPlugin (P := P) (R := R) maxR (fun _ => true), c)]
          (fun a _ => Except.error (errSeq a)) p c).1
        = some (Except.error (errSeq maxR)) ∧
      countTaskAttempts (taskPhase (k + 1)
          [(RetryPlugin (P := P) (R := R) maxR (fun _ => true), c)]
          (fun a _ => Except.error (errSeq a)) p c).2 = k + 1 ∧
      countShouldRetryCalls (taskPhase (k + 1)
          [(RetryPlugin (P := P) (R := R) maxR (fun _ => true), c)]
          (fun a _ => Except.error (errSeq a)) p c).2 = k := by
  intro k
  induction k with
  | zero =>
    intro c hc
    have hle : maxR ≤ c := by omega
    have hcm : c = maxR := by omega
    have h1 : (RetryPlugin (P := P) (R := R) maxR (fun _ => true)).onError (errSeq c) c
        = (ErrorAction.notHandled, c, []) := by
      simp [RetryPlugin, hle]
    have h2 : runErrorChain (errSeq c)
          [(RetryPlugin (P := P) (R := R) maxR (fun _ => true), c)]
        = (ErrorAction.notHandled,
           [(RetryPlugin (P := P) (R := R) maxR (fun _ => true), c)],
           [PipeEvent.errorHook "RetryPlugin"]) := by
      simp [runErrorChain, RetryPlugin, hle]
    have hstep := taskPhase_error_notHandled 0
      [(RetryPlugin (P := P) (R := R) maxR (fun _ => true), c)]
      [(RetryPlugin (P := P) (R := R) maxR (fun _ => true), c)]
      (fun a _ => Except.error (errSeq a)) p c (errSeq c)
      [PipeEvent.errorHook "RetryPlugin"] rfl h2
    rw [hstep, hcm]
    refine ⟨rfl, ?_, ?_⟩ <;> simp [countTaskAttempts, countShouldRetryCalls]
  | succ k ih =>
    intro c hc
    have hlt : ¬ maxR ≤ c := by omega
    obtain ⟨hres, hcnt, hsr⟩ := ih (c + 1) (by omega)
    have h1 : (RetryPlugin (P := P) (R := R) maxR (fun _ => true)).onError (errSeq c) c
        = (ErrorAction.retryTask, c + 1, [PipeEvent.shouldRetryCall]) := by
      simp [RetryPlugin, hlt]
    have h2 : runErrorChain (errSeq c)
          [(RetryPlugin (P := P) (R := R) maxR (fun _ => true), c)]
        = (ErrorAction.retryTask,
           [(RetryPlugin (P := P) (R := R) maxR (fun _ => true), c + 1)],
           [PipeEvent.errorHook "RetryPlugin", PipeEvent.shouldRetryCall]) := by
      simp [runErrorChain, RetryPlugin, hlt]
    have hstep := taskPhase_error_retry (k + 1)
      [(RetryPlugin (P := P) (R := R) maxR (fun _ => true), c)]
      [(RetryPlugin (P := P) (R := R) maxR (fun _ => true), c + 1)]
      (fun a _ => Except.error (errSeq a)) p c (errSeq c)
      [PipeEvent.errorHook "RetryPlugin", PipeEvent.shouldRetryCall] rfl h2
    rw [hstep]
    refine ⟨hres, ?_, ?_⟩ <;>
      simp [countTaskAttempts, countShouldRetryCalls] at hcnt hsr ⊢ <;>
      omega

/-- Claim C1: with a RetryPlugin of bound maxR whose predicate always says
retry, installed alone on an executor whose task fails on every attempt,
one top-level execution performs exactly maxR + 1 task attempts, evaluates
the retry predicate exactly maxR times (never on the final, exhausting
failure), and finally rejects with the failure observed on the last
attempt, unchanged. -/
theorem c1_retry_exhaustion :
    ∀ (P R E : Type) (maxR : Nat) (errSeq : Nat → E) (p : P),
      (exec (P := P) (R := R) (maxR + 1) [RetryPlugin maxR (fun _ => true)]
          (fun a _ => Except.error (errSeq a)) p).1
        = some (Except.error (errSeq maxR)) ∧
      countTaskAttempts (exec (P := P) (R := R) (maxR + 1)
          [RetryPlugin maxR (fun _ => true)]
          (fun a _ => Except.error (errSeq a)) p).2 = maxR + 1 ∧
      countShouldRetryCalls (exec (P := P) (R := R) (maxR + 1)
          [RetryPlugin maxR (fun _ => true)]
          (fun a _ => Except.error (errSeq a)) p).2 = maxR := by
  intro P R E maxR errSeq p
  obtain ⟨hres, hcnt, hsr⟩ := retry_loop (P := P) (R := R) maxR errSeq p maxR 0 (by omega)
  rcases hrec : taskPhase (P := P) (R := R) (E := E) (maxR + 1)
      [(RetryPlugin maxR (fun _ => true), 0)]
      (fun a _ => Except.error (errSeq a)) p 0 with ⟨res, evs⟩
  rw [hrec] at hres hcnt hsr
  have hb : runBeforeHooks (P := P) (R := R) (E := E)
        [RetryPlugin maxR (fun _ => true)] p
      = (p, [PipeEvent.beforeHook "RetryPlugin"]) := rfl
  have hcnt2 : countTaskAttempts evs = maxR + 1 := hcnt
  have hsr2 : countShouldRetryCalls evs = maxR := hsr
  refine ⟨?_, ?_, ?_⟩
  · simp [exec, hb, hrec, hres]
  · simp [exec, hb, hrec, countTaskAttempts, countShouldRetryCalls] at hcnt2 ⊢
    omega
  · simp [exec, hb, hrec, countTaskAttempts, countShouldRetryCalls] at hsr2 ⊢
    omega

/-- Claim C6: when the retry predicate refuses the first failure, the
RetryPlugin's onError reports not handled, the failure propagates
unchanged, and exactly one task attempt is performed. -/
theorem c6_should_retry_false :
    ∀ (P R E : Type) (maxR : Nat) (sr : E → Bool),
      (∀ x, sr x = false) →
      ∀ (e : E) (p : P) (c : Nat),
        ((RetryPlugin (P := P) (R := R) maxR sr).onError e c).1
            = ErrorAction.notHandled ∧
        (exec (P := P) (R := R) 1 [RetryPlugin maxR sr]
            (fun _ _ => Except.error e) p).1 = some (Except.error e) ∧
        countTaskAttempts (exec (P := P) (R := R) 1 [RetryPlugin maxR sr]
            (fun _ _ => Except.error e) p).2 = 1 := by
  intro P R E maxR sr hsr e p c
  have hb : runBeforeHooks (P := P) (R := R) (E := E) [RetryPlugin maxR sr] p
      = (p, [PipeEvent.beforeHook "RetryPlugin"]) := rfl
  have h1 : (RetryPlugin (P := P) (R := R) maxR sr).onError e 0
      = (ErrorAction.notHandled, 0,
         if maxR ≤ 0 then [] else [PipeEvent.shouldRetryCall]) := by
    by_cases hle : maxR ≤ 0 <;> simp [RetryPlugin, hle, hsr e]
  have h2 : runErrorChain e [(RetryPlugin (P := P) (R := R) maxR sr, 0)]
      = (ErrorAction.notHandled, [(RetryPlugin (P := P) (R := R) maxR sr, 0)],
         PipeEvent.errorHook "RetryPlugin"
           :: (if maxR ≤ 0 then [] else [PipeEvent.shouldRetryCall])) := by
    simp [runErrorChain, h1]
    rfl
  have hstep := taskPhase_error_notHandled (P := P) (R := R) 0
      [(RetryPlugin maxR sr, 0)] [(RetryPlugin maxR sr, 0)]
      (fun _ _ => Except.error e) p 0 e
      (PipeEvent.errorHook "RetryPlugin"
        :: (if maxR ≤ 0 then [] else [PipeEvent.shouldRetryCall])) rfl h2
  have hstep2 : taskPhase (P := P) (R := R) (E := E) 1 [(RetryPlugin maxR sr, 0)]
      (fun _ _ => Except.error e) p 0
      = (some (Except.error e),
         PipeEvent.taskAttempt 0 :: PipeEvent.errorHook "RetryPlugin"
           :: (if maxR ≤ 0 then [] else [PipeEvent.shouldRetryCall])) := hstep
  refine ⟨?_, ?_, ?_⟩
  · by_cases hle : maxR ≤ c <;> simp [RetryPlugin, hle, hsr e]
  · simp [exec, hb, hstep2]
  · by_cases hle : maxR ≤ 0 <;>
      simp [exec, hb, hstep2, hle, countTaskAttempts]

theorem c6_witness :
    ((RetryPlugin (P := Nat) (R := Nat) 2 (fun _ => false)).onError 7 0).1
        = ErrorAction.notHandled ∧
    (exec (P := Nat) (R := Nat) 1 [RetryPlugin 2 (fun _ => false)]
        (fun _ _ => Except.error 7) 0).1 = some (Except.error 7) ∧
    countTaskAttempts (exec (P := Nat) (R := Nat) 1 [RetryPlugin 2 (fun _ => false)]
        (fun _ _ => Except.error 7) 0).2 = 1 :=
  c6_should_retry_false Nat Nat Nat 2 (fun _ => false) (fun _ => rfl) 7 0 0

/-- Claim C3: RequestScheduler.request sends the shallow merge of the
per-call config over the adapter defaults with call-site precedence — every
key of the sent config resolves to the call value when present and to the
default otherwise — and, concretely, a scheduler whose adapter defaults
hold data "D" echoes data "D" when the call omits data and data "E" when
the call supplies data "E". -/
theorem c3_config_merge :
    (∀ (d c : List (String × String)) (u : String),
        getKey "url" (jsSpread d c) = some u →
        strIncludes u "/test/fail" = false →
        ∃ resp, schedulerRequest 1 [] d c
            = (some (Except.ok resp), [PipeEvent.taskAttempt 0]) ∧
          resp.data = getKey "data" (jsSpread d c) ∧
          ∀ k, getKey k resp.config = (getKey k c).or (getKey k d)) ∧
    (schedulerRequest 1 [] [("data", "D")] [("url", "/x"), ("method", "GET")]).1
        = some (Except.ok
            ⟨200, "ok", [], some "D", [("data", "D"), ("url", "/x"), ("method", "GET")]⟩) ∧
    (schedulerRequest 1 [] [("data", "D")] [("url", "/x"), ("data", "E")]).1
        = some (Except.ok
            ⟨200, "ok", [], some "E", [("url", "/x"), ("data", "E")]⟩) := by
  refine ⟨?_, by rfl, by rfl⟩
  intro d c u hurl hfail
  have hsend : ∀ k, getKey k (jsSpread d (jsSpread d c)) = (getKey k c).or (getKey k d) := by
    intro k
    rw [getKey_jsSpread, getKey_jsSpread, option_or_or_self]
  have hurl2 : getKey "url" (jsSpread d (jsSpread d c)) = some u := by
    rw [hsend, ← getKey_jsSpread, hurl]
  have hmock : mockRequest d (jsSpread d c)
      = Except.ok
          { status := 200, statusText := "ok", headers := []
            data := getKey "data" (jsSpread d (jsSpread d c))
            config := jsSpread d (jsSpread d c) } := by
    unfold mockRequest
    simp only [hurl2, hfail]
    simp
  refine ⟨{ status := 200, statusText := "ok", headers := []
            data := getKey "data" (jsSpread d (jsSpread d c))
            config := jsSpread d (jsSpread d c) }, ?_, ?_, ?_⟩
  · unfold schedulerRequest exec
    simp [runBeforeHooks, taskPhase, hmock, runSuccessHooks]
  · rw [hsend, ← getKey_jsSpread]
  · intro k
    exact hsend k

theorem c3_witness :
    (schedulerRequest 1 [] [("data", "D")] [("url", "/x")]).1
      = some (Except.ok ⟨200, "ok", [], some "D", [("data", "D"), ("url", "/x")]⟩) := by
  obtain ⟨resp, h1, h2, h3⟩ := c3_config_merge.1 [("data", "D")] [("url", "/x")] "/x" rfl rfl
  have hcalc : schedulerRequest 1 [] [("data", "D")] [("url", "/x")]
      = (some (Except.ok ⟨200, "ok", [], some "D", [("data", "D"), ("url", "/x")]⟩),
         [PipeEvent.taskAttempt 0]) := rfl
  rw [h1] at hcalc
  have hr : resp = ⟨200, "ok", [], some "D", [("data", "D"), ("url", "/x")]⟩ := by
    have h4 := congrArg Prod.fst hcalc
    simpa using h4
  rw [h1, hr]
